import Mathlib

/-!
Verification of the `Processes` component
(`src/app/sites/processes/processes.ts`).

The component is a UI glue layer: it loads raw process records from a
backend, projects them into view-model records, filters them, starts
processes (tracking in-flight ids), and edits them via draft copies.

Shallow embedding conventions:
* JS objects become structures; absent/null fields become `Option`.
* The component instance becomes an explicit `State` value; every method
  becomes a function `State → ...`.  The source never mutates nested
  objects in place (all its writes are whole-field assignments or whole
  list-slot replacements), so value semantics coincides with the JS
  reference semantics for every execution of the component.
* Asynchronous subscriptions are split into a `...Begin` function (the
  synchronous part up to issuing the request) and `...Next` / `...Error`
  handlers (the response callbacks).  Emitted effects (requests,
  snackbar notifications, triggered reloads) are returned explicitly.
* JS `Set<string>` (insertion ordered) is modelled as a duplicate-free
  `List String` with `setAdd` / `setDelete` / `setHas`.
-/

namespace Processes

/-- A JS primitive value as it appears in a parameter's `value` field:
a string, a finite number (the claims only exercise integral values, so
numbers are modelled as `Int`), or `null`/`undefined` (both `null`). -/
inductive JsValue where
  | null : JsValue
  | str : String → JsValue
  | num : Int → JsValue
deriving DecidableEq, Repr

/-- JS `Number(string)` restricted to the value shapes the component
meets: the string is trimmed of whitespace; an empty remainder yields
`0`; an optionally signed run of decimal digits yields its value; any
other string yields `NaN`, modelled as `none`.  (JS also accepts
fractional/hex/exponent numerals; the component's claims only involve
integral numerals, whitespace, and non-numeric strings.) -/
def jsStringToNumber (s : String) : Option Int :=
  let cs := ((s.data.dropWhile Char.isWhitespace).reverse.dropWhile Char.isWhitespace).reverse
  let digitsVal : List Char → Option Int := fun ds =>
    if ds ≠ [] ∧ ds.all Char.isDigit then
      some (ds.foldl (fun a c => a * 10 + (c.toNat - 48 : Int)) 0)
    else none
  match cs with
  | [] => some 0
  | '-' :: rest => (digitsVal rest).map (fun n => -n)
  | '+' :: rest => digitsVal rest
  | _ => digitsVal cs

/-- JS `Number(v)` on the modelled value shapes: `Number(null) = 0`,
numbers are returned as-is, strings go through `jsStringToNumber`.
`none` models `NaN`. -/
def jsToNumber (v : JsValue) : Option Int :=
  match v with
  | .null => some 0
  | .num n => some n
  | .str s => jsStringToNumber s

/-- A process parameter `{name, type, value}`; `name`/`type` may be
absent. -/
structure Param where
  name : Option String
  type : Option String
  value : JsValue
deriving DecidableEq, Repr

/-- A raw workflow tag `{name}` from the listing API. -/
structure RawTag where
  name : Option String
deriving DecidableEq, Repr

/-- Raw `workflow{name, active, tags[]}` from the listing API.  `tags`
is `some` exactly when the field is present as an array (the source
checks `Array.isArray`); `active` is its JS truthiness. -/
structure RawWorkflow where
  name : Option String
  active : Bool
  tags : Option (List RawTag)
deriving DecidableEq, Repr

/-- Raw `executionBrief{status, startedAt}` from the listing API. -/
structure RawExecutionBrief where
  status : Option String
  startedAt : Option String
deriving DecidableEq, Repr

/-- A raw process record as returned by `getProcesses()`. -/
structure RawProcess where
  id : Option String
  name : Option String
  description : Option String
  parameters : Option (List Param)
  workflow : Option RawWorkflow
  executionBrief : Option RawExecutionBrief
deriving DecidableEq, Repr

/-- The view-model record built by `loadProcesses` for the template. -/
structure ProcessRecord where
  id : Option String
  name : Option String
  workflowName : String
  description : Option String
  parameters : List Param
  active : String
  status : String
  startedAt : Option String
  canExecute : Bool
deriving DecidableEq, Repr

/-- JS `String.prototype.toLowerCase` on the ASCII range met here:
each character is lowercased independently. -/
def jsToLower (s : String) : String := ⟨s.data.map Char.toLower⟩

/-- One tag's test from `loadProcesses`:
`(t?.name ?? '').toString().toLowerCase() === 'webhook'`. -/
def tagIsWebhook (t : RawTag) : Bool :=
  jsToLower (t.name.getD "") == "webhook"

/-- The `canExecute` computation from `loadProcesses`:
`!!p.workflow?.tags && Array.isArray(p.workflow.tags) &&
 p.workflow.tags.some(t => (t?.name ?? '').toString().toLowerCase() === 'webhook')`. -/
def rawCanExecute (p : RawProcess) : Bool :=
  match p.workflow with
  | none => false
  | some w =>
    match w.tags with
    | none => false
    | some ts => ts.any tagIsWebhook

/-- The per-record projection inside `loadProcesses`'s `res.map`. -/
def projectRecord (p : RawProcess) : ProcessRecord :=
  { id := p.id
    name := p.name
    workflowName := (p.workflow.bind (·.name)).getD ""
    description := p.description
    parameters := p.parameters.getD []
    active := if (p.workflow.map (·.active)).getD false
              then "Proceso Activo" else "Proceso Inactivo"
    status := (p.executionBrief.bind (·.status)).getD ""
    startedAt := p.executionBrief.bind (·.startedAt)
    canExecute := rawCanExecute p }

/-- JS `Set.has` on the insertion-ordered list model. -/
def setHas (l : List String) (x : String) : Bool := l.contains x

/-- JS `Set.add` on the insertion-ordered list model. -/
def setAdd (l : List String) (x : String) : List String :=
  if l.contains x then l else l ++ [x]

/-- JS `Set.delete` on the insertion-ordered list model. -/
def setDelete (l : List String) (x : String) : List String :=
  l.filter (fun y => y ≠ x)

/-- The mutable fields of the `Processes` component instance. -/
structure State where
  processes : List ProcessRecord
  loading : Bool
  error : Option String
  showOnlyExecutable : Bool
  startingProcessIds : List String
  selectedProcess : Option ProcessRecord
  editedProcess : Option ProcessRecord
  editedParameters : List Param
deriving DecidableEq, Repr

/-- The `displayedProcesses` getter.  (The source's `!this.processes`
null guard is unreachable here: `processes` is initialised to `[]` and
only ever assigned arrays, and the embedding's list type has no null.) -/
def displayedProcesses (st : State) : List ProcessRecord :=
  if !st.showOnlyExecutable then st.processes
  else st.processes.filter (fun p => p.canExecute)

/-- `toggleEjecutable()`. -/
def toggleEjecutable (st : State) : State :=
  { st with showOnlyExecutable := !st.showOnlyExecutable }

/-- The `loadProcesses` subscription callback: replaces the whole list
with the projected records. -/
def loadNext (st : State) (res : List RawProcess) : State :=
  { st with processes := res.map projectRecord }

/-- JS `String(x)` on an optional string: an absent value prints as
`"undefined"`. -/
def jsString (o : Option String) : String := o.getD "undefined"

/-- `selectProcess(process)`.  The source stores `process` itself in
`selectedProcess`, a shallow copy `{...process}` in `editedProcess`, and
per-element shallow copies of `process.parameters` in
`editedParameters`; all three are value-identical to the source record's
components in this embedding. -/
def selectProcess (st : State) (process : ProcessRecord) : State :=
  { st with
    selectedProcess := some process
    editedProcess := some process
    editedParameters := process.parameters }

/-- `isStarting(process)`. -/
def isStarting (st : State) (process : Option ProcessRecord) : Bool :=
  match process with
  | none => false
  | some pr => setHas st.startingProcessIds (jsString pr.id)

/-- `cancelEdit()`: resets `editedParameters` from the selected record's
parameters, then clears the session. -/
def cancelEdit (st : State) : State :=
  match st.selectedProcess with
  | none => st
  | some sp =>
    { st with
      editedParameters := sp.parameters
      editedProcess := none
      selectedProcess := none }

/-- An arbitrary edit of the draft fields (`editedProcess`,
`editedParameters`) — the model of whatever the template's form bindings
write into the drafts before a save. -/
def editDrafts (st : State)
    (f : Option ProcessRecord → Option ProcessRecord)
    (g : List Param → List Param) : State :=
  { st with
    editedProcess := f st.editedProcess
    editedParameters := g st.editedParameters }

/-- The synchronous part of `startProcess(process)` up to issuing the
request.  Returns the new state and `some id` when the start request for
`id` was issued, `none` when the call was a no-op.  The JS guard
`!process || !process.id` makes the call a no-op for an absent process,
an absent id, and an empty-string id (falsy). -/
def startBegin (st : State) (process : Option ProcessRecord) :
    State × Option String :=
  match process with
  | none => (st, none)
  | some pr =>
    match pr.id with
    | none => (st, none)
    | some rawId =>
      if rawId = "" then (st, none)
      else if setHas st.startingProcessIds rawId then (st, none)
      else ({ st with startingProcessIds := setAdd st.startingProcessIds rawId },
            some rawId)

/-- The `{ success, message, data }` start response.  `success` is
`some b` when the field is present as a boolean and `none` when absent
(`!!res?.success` is then false); `message` is `some` when present. -/
structure StartResp where
  success : Option Bool
  message : Option String
deriving DecidableEq, Repr

/-- The effects of a response callback: the new component state, the
snackbar notifications shown (in order), and whether `loadProcesses()`
was triggered. -/
structure RespEffects where
  state : State
  notifications : List String
  reloadTriggered : Bool
deriving Repr

/-- The `next` callback of `startProcess`'s subscription, for the id the
request was issued with.  `res` is `none` when the server responded with
a null body (`res?.` guards in the source). -/
def startNext (st : State) (id : String) (res : Option StartResp) :
    RespEffects :=
  let succ := (res.bind (·.success)).getD false
  let displayMessage :=
    (res.bind (·.message)).getD
      (if succ then "Proceso iniciado" else "No se pudo iniciar el proceso")
  { state := { st with startingProcessIds := setDelete st.startingProcessIds id }
    notifications := [displayMessage]
    reloadTriggered := succ }

/-- The nested `error` body of a transport/server error. -/
structure ErrBody where
  message : Option String
deriving DecidableEq, Repr

/-- A transport/server error object as consumed by the `error`
callbacks: `err?.error?.message`, `err?.message`, `err?.statusText`. -/
structure JsError where
  error : Option ErrBody
  message : Option String
  statusText : Option String
deriving DecidableEq, Repr

/-- The message chain of `startProcess`'s error callback:
`err?.error?.message ?? err?.message ?? err?.statusText ?? 'Error de red'`. -/
def startErrMsg (err : JsError) : String :=
  match err.error.bind (·.message) with
  | some m => m
  | none =>
    match err.message with
    | some m => m
    | none =>
      match err.statusText with
      | some s => s
      | none => "Error de red"

/-- The `error` callback of `startProcess`'s subscription (the
`console.error` log is not an observable modelled here). -/
def startError (st : State) (id : String) (err : JsError) : RespEffects :=
  { state := { st with startingProcessIds := setDelete st.startingProcessIds id }
    notifications := [startErrMsg err]
    reloadTriggered := false }

/-- The per-parameter normalisation inside `updateSelectedProcess`:
a shallow copy whose `value` is numerically coerced when
`copy.type === 'number'` and the coercion does not yield `NaN`. -/
def normalizeParam (p : Param) : Param :=
  if p.type == some "number" then
    match jsToNumber p.value with
    | some n => { p with value := .num n }
    | none => p
  else p

/-- `paramsToSend` from `updateSelectedProcess`. -/
def paramsToSend (ps : List Param) : List Param := ps.map normalizeParam

/-- The `{ name, description, parameters }` patch payload. -/
structure PatchBody where
  name : Option String
  description : Option String
  parameters : List Param
deriving DecidableEq, Repr

/-- The synchronous part of `updateSelectedProcess()` up to issuing the
patch request: `none` when `selectedProcess` is null (early return) and
also when `editedProcess` is null — a state no component flow produces
(there the JS would throw reading `.name`); otherwise
`some (String(selectedProcess.id), body)`. -/
def updateBegin (st : State) : Option (String × PatchBody) :=
  match st.selectedProcess with
  | none => none
  | some sp =>
    match st.editedProcess with
    | none => none
    | some e =>
      some (jsString sp.id,
        { name := e.name
          description := e.description
          parameters := paramsToSend st.editedParameters })

/-- The shallow merge `{...old, name, description, parameters}` of the
success callback. -/
def mergePatch (old : ProcessRecord) (body : PatchBody) : ProcessRecord :=
  { old with
    name := body.name
    description := body.description
    parameters := body.parameters }

/-- `findIndex(p => p.id === selectedProcess.id)` followed by the
slot replacement: the first record whose id equals `id` is replaced by
its shallow merge with `body`; when no record matches, the list is
returned unchanged (`idx === -1`). -/
def replaceById (ps : List ProcessRecord) (id : Option String)
    (body : PatchBody) : List ProcessRecord :=
  match ps with
  | [] => []
  | p :: rest =>
    if p.id = id then mergePatch p body :: rest
    else p :: replaceById rest id body

/-- The `next` callback of `updateSelectedProcess`'s subscription.  The
`none` branch is unreachable in the component's flows (the session that
issued the patch is still open when its sole response arrives; there the
JS would throw reading `.id`). -/
def updateSuccess (st : State) (body : PatchBody) : State :=
  match st.selectedProcess with
  | none => st
  | some sp =>
    { st with
      processes := replaceById st.processes sp.id body
      selectedProcess := none
      editedProcess := none
      editedParameters := [] }

/-- The `error` callback of `updateSelectedProcess`'s subscription: only
`console.error`, every component field kept. -/
def updateFailure (st : State) : State := st

/-- `formatTimeAgo`'s core on millisecond epochs, after date parsing:
`diff = Math.floor((now - then)/1000)` and the unit cascade.  JS
`Math.floor` of a real quotient is floor division, `Int.fdiv`. -/
def formatTimeAgoMs (thenMs nowMs : Int) : String :=
  let diff := Int.fdiv (nowMs - thenMs) 1000
  if diff < 60 then "Hace " ++ toString diff ++ " seg"
  else
    let mins := Int.fdiv diff 60
    if mins < 60 then "Hace " ++ toString mins ++ " min"
    else
      let hours := Int.fdiv mins 60
      if hours < 24 then "Hace " ++ toString hours ++ " h"
      else "Hace " ++ toString (Int.fdiv hours 24) ++ " d"

/-- `formatTimeAgo(isoDate)`.  The ambient `new Date(s).getTime()` and
`Date.now()` are passed in as `parseMs` and `nowMs`; the JS falsy guard
`!isoDate` also catches the empty string. -/
def formatTimeAgo (parseMs : String → Int) (nowMs : Int)
    (isoDate : Option String) : String :=
  match isoDate with
  | none => ""
  | some s => if s = "" then "" else formatTimeAgoMs (parseMs s) nowMs

end Processes

namespace Processes

/-! ## Helper lemmas -/

theorem setHas_setDelete (l : List String) (x : String) :
    setHas (setDelete l x) x = false := by
  simp [setHas, setDelete]

theorem replaceById_not_found (ps : List ProcessRecord) (id : Option String)
    (body : PatchBody) (h : ∀ q ∈ ps, q.id ≠ id) :
    replaceById ps id body = ps := by
  induction ps with
  | nil => rfl
  | cons p rest ih =>
    have hp : p.id ≠ id := h p (List.mem_cons_self p rest)
    simp only [replaceById, if_neg hp]
    rw [ih (fun q hq => h q (List.mem_cons_of_mem p hq))]

theorem replaceById_found (pre : List ProcessRecord) (p : ProcessRecord)
    (post : List ProcessRecord) (id : Option String) (body : PatchBody)
    (hpre : ∀ q ∈ pre, q.id ≠ id) (hp : p.id = id) :
    replaceById (pre ++ p :: post) id body = pre ++ mergePatch p body :: post := by
  induction pre with
  | nil => simp [replaceById, hp]
  | cons a rest ih =>
    have ha : a.id ≠ id := hpre a (List.mem_cons_self a rest)
    have ih' := ih (fun q hq => hpre q (List.mem_cons_of_mem a hq))
    simp only [List.cons_append, replaceById, if_neg ha]
    exact congrArg (List.cons a) ih'

/-! ## Claims -/

/-- C1: for every raw API record, the `ProcessRecord` projected by
`loadProcesses` has `canExecute = true` iff the record's workflow tag
set contains an entry whose name case-insensitively equals `"webhook"`,
and `canExecute = false` when the workflow or its tags are absent or the
tag array is empty. -/
theorem canExecute_iff_webhook_tag (r : RawProcess) :
    ((projectRecord r).canExecute = true ↔
      ∃ w, r.workflow = some w ∧ ∃ ts, w.tags = some ts ∧
        ∃ t ∈ ts, jsToLower (t.name.getD "") = "webhook") ∧
    (r.workflow = none → (projectRecord r).canExecute = false) ∧
    (∀ w, r.workflow = some w → w.tags = none →
      (projectRecord r).canExecute = false) ∧
    (∀ w, r.workflow = some w → w.tags = some [] →
      (projectRecord r).canExecute = false) := by
  have hmain : (projectRecord r).canExecute = rawCanExecute r := rfl
  refine ⟨?_, ?_, ?_, ?_⟩
  · rw [hmain]
    rcases hw : r.workflow with _ | w
    · simp [rawCanExecute, hw]
    · rcases ht : w.tags with _ | ts
      · simp [rawCanExecute, hw, ht]
      · simp [rawCanExecute, hw, ht, List.any_eq_true, tagIsWebhook, beq_iff_eq]
  · intro hw
    rw [hmain]
    simp [rawCanExecute, hw]
  · intro w hw ht
    rw [hmain]
    simp [rawCanExecute, hw, ht]
  · intro w hw ht
    rw [hmain]
    simp [rawCanExecute, hw, ht]

/-- Witness for C1: case variants `"WEBHOOK"`/`"webhook"` yield `true`,
an absent workflow and an empty tag array yield `false`. -/
theorem canExecute_iff_webhook_tag_witness :
    (projectRecord ⟨some "1", none, none, none,
      some ⟨some "wf", true, some [⟨some "WEBHOOK"⟩]⟩, none⟩).canExecute = true ∧
    (projectRecord ⟨some "2", none, none, none,
      some ⟨some "wf", true, some [⟨some "webhook"⟩]⟩, none⟩).canExecute = true ∧
    (projectRecord ⟨some "3", none, none, none, none, none⟩).canExecute = false ∧
    (projectRecord ⟨some "4", none, none, none,
      some ⟨some "wf", true, some []⟩, none⟩).canExecute = false := by
  refine ⟨?_, ?_, ?_, ?_⟩
  · exact (canExecute_iff_webhook_tag _).1.mpr
      ⟨_, rfl, _, rfl, ⟨some "WEBHOOK"⟩, by simp, by decide⟩
  · exact (canExecute_iff_webhook_tag _).1.mpr
      ⟨_, rfl, _, rfl, ⟨some "webhook"⟩, by simp, by decide⟩
  · exact (canExecute_iff_webhook_tag _).2.1 rfl
  · exact (canExecute_iff_webhook_tag _).2.2.2 _ rfl rfl

/-- C2: `startProcess(p)` is a no-op — state unchanged, no request
issued — when `p` is absent, when `p.id` is absent or falsy, and when
`p`'s id is already in the in-flight start set; hence at most one start
request per process id is outstanding at any time. -/
theorem startProcess_noop_when_inflight (st : State) (p : Option ProcessRecord) :
    (p = none → startBegin st p = (st, none)) ∧
    (∀ pr, p = some pr → pr.id = none → startBegin st p = (st, none)) ∧
    (∀ pr, p = some pr → pr.id = some "" → startBegin st p = (st, none)) ∧
    (∀ pr s, p = some pr → pr.id = some s →
      setHas st.startingProcessIds s = true → startBegin st p = (st, none)) := by
  refine ⟨?_, ?_, ?_, ?_⟩
  · intro hp; subst hp; rfl
  · intro pr hp hid; subst hp; simp [startBegin, hid]
  · intro pr hp hid; subst hp; simp [startBegin, hid]
  · intro pr s hp hid hhas
    subst hp
    by_cases h : s = "" <;> simp [startBegin, hid, h, hhas]

/-- Witness for C2: a second start for id `"5"` while `"5"` is in-flight
leaves the state unchanged and issues nothing. -/
theorem startProcess_noop_when_inflight_witness :
    startBegin ⟨[], false, none, false, ["5"], none, none, []⟩
      (some ⟨some "5", none, "", none, [], "", "", none, false⟩) =
    (⟨[], false, none, false, ["5"], none, none, []⟩, none) :=
  (startProcess_noop_when_inflight _ _).2.2.2 _ "5" rfl rfl (by decide)

/-- C3: `displayedProcesses` is a pure derived view: with the toggle off
it returns the identical list; with the toggle on it returns exactly the
order-preserving sublist (`List.filter`) of records with
`canExecute = true`. -/
theorem displayedProcesses_filter (st : State) :
    (st.showOnlyExecutable = false → displayedProcesses st = st.processes) ∧
    (st.showOnlyExecutable = true →
      displayedProcesses st = st.processes.filter (fun p => p.canExecute) ∧
      List.Sublist (displayedProcesses st) st.processes ∧
      (∀ p ∈ displayedProcesses st, p.canExecute = true) ∧
      (∀ p ∈ st.processes, p.canExecute = true → p ∈ displayedProcesses st)) := by
  constructor
  · intro h; simp [displayedProcesses, h]
  · intro h
    have he : displayedProcesses st = st.processes.filter (fun p => p.canExecute) := by
      simp [displayedProcesses, h]
    refine ⟨he, ?_, ?_, ?_⟩
    · rw [he]; exact List.filter_sublist st.processes
    · intro p hp
      rw [he] at hp
      exact (List.mem_filter.mp hp).2
    · intro p hp hc
      rw [he]
      exact List.mem_filter.mpr ⟨hp, hc⟩

/-- Witness for C3: a two-record list with the toggle on keeps exactly
its `canExecute` record. -/
theorem displayedProcesses_filter_witness :
    displayedProcesses
      ⟨[⟨some "1", none, "", none, [], "", "", none, true⟩,
        ⟨some "2", none, "", none, [], "", "", none, false⟩],
       false, none, true, [], none, none, []⟩ =
      [⟨some "1", none, "", none, [], "", "", none, true⟩] :=
  ((displayedProcesses_filter _).2 rfl).1

/-- C4: for every start response `res`, the id is removed from the
in-flight set whether `res.success` is true or false, exactly one
notification is shown carrying `res.message` (with a generic fallback
when absent), and `loadProcesses()` is triggered iff `res.success` is
truthy; in particular `{success: true, message: "ok"}` triggers the
reload and shows `"ok"`. -/
theorem startProcess_response (st : State) (id : String) (res : Option StartResp) :
    setHas (startNext st id res).state.startingProcessIds id = false ∧
    (startNext st id res).state.processes = st.processes ∧
    (startNext st id res).notifications.length = 1 ∧
    (∀ r m, res = some r → r.message = some m →
      (startNext st id res).notifications = [m]) ∧
    (∀ r, res = some r → r.message = none → r.success = some true →
      (startNext st id res).notifications = ["Proceso iniciado"]) ∧
    (∀ r, res = some r → r.message = none → r.success ≠ some true →
      (startNext st id res).notifications = ["No se pudo iniciar el proceso"]) ∧
    ((startNext st id res).reloadTriggered = true ↔
      res.bind (fun r => r.success) = some true) ∧
    (res = some ⟨some true, some "ok"⟩ →
      (startNext st id res).reloadTriggered = true ∧
      (startNext st id res).notifications = ["ok"]) := by
  refine ⟨setHas_setDelete _ _, rfl, rfl, ?_, ?_, ?_, ?_, ?_⟩
  · intro r m hr hm
    subst hr
    simp [startNext, hm]
  · intro r hr hm hs
    subst hr
    simp [startNext, hm, hs]
  · intro r hr hm hs
    subst hr
    rcases hb : r.success with _ | b
    · simp [startNext, hm, hb]
    · cases b
      · simp [startNext, hm, hb]
      · exact absurd hb hs
  · rcases h : res.bind (fun r => r.success) with _ | b
    · simp [startNext, h]
    · cases b <;> simp [startNext, h]
  · intro hr
    subst hr
    exact ⟨rfl, rfl⟩

/-- Witness for C4: for response `{success: true, message: "ok"}` to a
start of id `"7"`, `"7"` leaves the in-flight set, the reload is
triggered, and the single notification is `"ok"`. -/
theorem startProcess_response_witness :
    setHas (startNext ⟨[], false, none, false, ["7"], none, none, []⟩ "7"
      (some ⟨some true, some "ok"⟩)).state.startingProcessIds "7" = false ∧
    (startNext ⟨[], false, none, false, ["7"], none, none, []⟩ "7"
      (some ⟨some true, some "ok"⟩)).reloadTriggered = true ∧
    (startNext ⟨[], false, none, false, ["7"], none, none, []⟩ "7"
      (some ⟨some true, some "ok"⟩)).notifications = ["ok"] :=
  ⟨(startProcess_response _ "7" _).1,
   (startProcess_response _ "7" (some ⟨some true, some "ok"⟩)).2.2.2.2.2.2.2 rfl⟩

/-- C5: on a transport/server error the notification message is
`err.error.message` when present, else `err.message`, else
`err.statusText`, else `"Error de red"`; the process list is unchanged,
no reload is triggered, and the id is removed from the in-flight set. -/
theorem startProcess_error (st : State) (id : String) (err : JsError) :
    (∀ b m, err.error = some b → b.message = some m →
      (startError st id err).notifications = [m]) ∧
    (err.error.bind (fun b => b.message) = none → ∀ m, err.message = some m →
      (startError st id err).notifications = [m]) ∧
    (err.error.bind (fun b => b.message) = none → err.message = none →
      ∀ s, err.statusText = some s →
      (startError st id err).notifications = [s]) ∧
    (err.error.bind (fun b => b.message) = none → err.message = none →
      err.statusText = none →
      (startError st id err).notifications = ["Error de red"]) ∧
    (startError st id err).state.processes = st.processes ∧
    (startError st id err).reloadTriggered = false ∧
    setHas (startError st id err).state.startingProcessIds id = false := by
  refine ⟨?_, ?_, ?_, ?_, rfl, rfl, setHas_setDelete _ _⟩
  · intro b m hb hm
    simp [startError, startErrMsg, hb, hm]
  · intro h1 m hm
    simp [startError, startErrMsg, h1, hm]
  · intro h1 h2 s hs
    simp [startError, startErrMsg, h1, h2, hs]
  · intro h1 h2 h3
    simp [startError, startErrMsg, h1, h2, h3]

/-- Witness for C5: an error whose body carries `message: "boom"` for a
start of id `"7"` notifies `"boom"`, triggers no reload, leaves the list
unchanged, and clears `"7"` from the in-flight set. -/
theorem startProcess_error_witness :
    (startError ⟨[], false, none, false, ["7"], none, none, []⟩ "7"
      ⟨some ⟨some "boom"⟩, some "outer", some "500"⟩).notifications = ["boom"] ∧
    (startError ⟨[], false, none, false, ["7"], none, none, []⟩ "7"
      ⟨some ⟨some "boom"⟩, some "outer", some "500"⟩).reloadTriggered = false ∧
    setHas (startError ⟨[], false, none, false, ["7"], none, none, []⟩ "7"
      ⟨some ⟨some "boom"⟩, some "outer", some "500"⟩).state.startingProcessIds "7"
      = false :=
  ⟨(startProcess_error _ "7" _).1 ⟨some "boom"⟩ "boom" rfl rfl,
   (startProcess_error _ "7" ⟨some ⟨some "boom"⟩, some "outer", some "500"⟩).2.2.2.2.2.1,
   (startProcess_error _ "7" ⟨some ⟨some "boom"⟩, some "outer", some "500"⟩).2.2.2.2.2.2⟩

/-- C6: `selectProcess(p)` snapshots `p`'s metadata and parameters into
the drafts without touching the main list; `selectProcess` followed by
`cancelEdit` leaves `p` and the main list unchanged; and no modification
of `editedProcess`/`editedParameters` (modelled by arbitrary functions
over the draft fields) changes the main list or the selected record. -/
theorem selectProcess_cancelEdit_isolation (st : State) (p : ProcessRecord) :
    (selectProcess st p).processes = st.processes ∧
    (selectProcess st p).editedProcess = some p ∧
    (selectProcess st p).editedParameters = p.parameters ∧
    (cancelEdit (selectProcess st p)).processes = st.processes ∧
    (cancelEdit (selectProcess st p)).selectedProcess = none ∧
    (cancelEdit (selectProcess st p)).editedProcess = none ∧
    (p ∈ st.processes → p ∈ (cancelEdit (selectProcess st p)).processes) ∧
    (∀ f g,
      (editDrafts (selectProcess st p) f g).processes = st.processes ∧
      (editDrafts (selectProcess st p) f g).selectedProcess = some p) := by
  refine ⟨rfl, rfl, rfl, rfl, rfl, rfl, ?_, ?_⟩
  · intro hp
    simpa [cancelEdit, selectProcess] using hp
  · intro f g
    exact ⟨rfl, rfl⟩

/-- Witness for C6: a concrete record survives `selectProcess` +
`cancelEdit` as a member of an unchanged list. -/
theorem selectProcess_cancelEdit_isolation_witness :
    ⟨some "1", some "n", "wf", some "d",
      [⟨some "a", some "number", .str "1"⟩], "", "", none, true⟩ ∈
    (cancelEdit (selectProcess
      ⟨[⟨some "1", some "n", "wf", some "d",
         [⟨some "a", some "number", .str "1"⟩], "", "", none, true⟩],
       false, none, false, [], none, none, []⟩
      ⟨some "1", some "n", "wf", some "d",
        [⟨some "a", some "number", .str "1"⟩], "", "", none, true⟩)).processes :=
  (selectProcess_cancelEdit_isolation _ _).2.2.2.2.2.2.1 (List.mem_singleton.mpr rfl)

/-- C7: in `updateSelectedProcess`'s payload, every parameter of
declared type `"number"` has its value numerically coerced, keeps its
original value when coercion yields `NaN`, and parameters of any other
type are sent unchanged; `{type:"number", value:"42"}` becomes `42`,
`{type:"number", value:"abc"}` stays `"abc"`. -/
theorem updateSelectedProcess_number_normalization :
    (∀ p : Param, p.type ≠ some "number" → normalizeParam p = p) ∧
    (∀ p : Param, p.type = some "number" → ∀ n, jsToNumber p.value = some n →
      normalizeParam p = { p with value := .num n }) ∧
    (∀ p : Param, p.type = some "number" → jsToNumber p.value = none →
      normalizeParam p = p) ∧
    (∀ nm, normalizeParam ⟨nm, some "number", .str "42"⟩ =
      ⟨nm, some "number", .num 42⟩) ∧
    (∀ nm, normalizeParam ⟨nm, some "number", .str "abc"⟩ =
      ⟨nm, some "number", .str "abc"⟩) ∧
    (∀ st id body, updateBegin st = some (id, body) →
      body.parameters = paramsToSend st.editedParameters) ∧
    (∀ ps, paramsToSend ps = ps.map normalizeParam) := by
  refine ⟨?_, ?_, ?_, fun nm => rfl, fun nm => rfl, ?_, fun ps => rfl⟩
  · intro p h
    simp [normalizeParam, h]
  · intro p h n hn
    simp [normalizeParam, h, hn]
  · intro p h hn
    simp [normalizeParam, h, hn]
  · intro st id body h
    unfold updateBegin at h
    rcases hsp : st.selectedProcess with _ | sp <;> rw [hsp] at h
    · exact absurd h (by simp)
    · rcases hep : st.editedProcess with _ | e <;> rw [hep] at h
      · exact absurd h (by simp)
      · simp only [Option.some.injEq, Prod.mk.injEq] at h
        rw [← h.2]

/-- Witness for C7: a non-`"number"` parameter passes through unchanged
and a `"number"`-typed `"42"` is coerced, also inside a full
`updateBegin` payload. -/
theorem updateSelectedProcess_number_normalization_witness :
    normalizeParam ⟨none, some "text", .str "42"⟩ =
      ⟨none, some "text", .str "42"⟩ ∧
    normalizeParam ⟨none, some "number", .str "42"⟩ =
      ⟨none, some "number", .num 42⟩ ∧
    (⟨some "n", some "d", paramsToSend [⟨some "a", some "number", .str "42"⟩]⟩ :
        PatchBody).parameters =
      paramsToSend [⟨some "a", some "number", .str "42"⟩] :=
  ⟨updateSelectedProcess_number_normalization.1 ⟨none, some "text", .str "42"⟩
    (by decide),
   updateSelectedProcess_number_normalization.2.1 ⟨none, some "number", .str "42"⟩
    rfl 42 (by decide),
   updateSelectedProcess_number_normalization.2.2.2.2.2.1
    ⟨[], false, none, false, [],
      some ⟨some "1", some "n", "", some "d", [], "", "", none, false⟩,
      some ⟨some "1", some "n", "", some "d", [], "", "", none, false⟩,
      [⟨some "a", some "number", .str "42"⟩]⟩
    "1" ⟨some "n", some "d", paramsToSend [⟨some "a", some "number", .str "42"⟩]⟩
    rfl⟩

/-- C8: on patch success the record in the main list whose id equals the
selected process's id is replaced by a shallow-merged copy carrying the
new name, description, and normalized parameters, and the edit session
is closed; on patch failure the whole state — edit session and main
list — is unchanged. -/
theorem updateSelectedProcess_patch_response (st : State) (sp : ProcessRecord)
    (body : PatchBody) :
    (st.selectedProcess = some sp →
      (updateSuccess st body).processes = replaceById st.processes sp.id body ∧
      (updateSuccess st body).selectedProcess = none ∧
      (updateSuccess st body).editedProcess = none ∧
      (updateSuccess st body).editedParameters = []) ∧
    (∀ pre p post, (∀ q ∈ pre, q.id ≠ sp.id) → p.id = sp.id →
      replaceById (pre ++ p :: post) sp.id body =
        pre ++ mergePatch p body :: post) ∧
    (∀ ps, (∀ q ∈ ps, q.id ≠ sp.id) → replaceById ps sp.id body = ps) ∧
    (∀ p, mergePatch p body =
      { p with
        name := body.name
        description := body.description
        parameters := body.parameters }) ∧
    updateFailure st = st := by
  refine ⟨?_, ?_, ?_, fun p => rfl, rfl⟩
  · intro h
    simp [updateSuccess, h]
  · intro pre p post hpre hp
    exact replaceById_found pre p post sp.id body hpre hp
  · intro ps h
    exact replaceById_not_found ps sp.id body h

/-- Witness for C8: with record `"1"` selected, a successful patch
closes the session and rewrites the list through `replaceById`. -/
theorem updateSelectedProcess_patch_response_witness :
    (updateSuccess
      ⟨[⟨some "1", some "old", "", some "od", [], "", "", none, false⟩],
       false, none, false, [],
       some ⟨some "1", some "old", "", some "od", [], "", "", none, false⟩,
       some ⟨some "1", some "new", "", some "nd", [], "", "", none, false⟩, []⟩
      ⟨some "new", some "nd", []⟩).processes =
      replaceById
        [⟨some "1", some "old", "", some "od", [], "", "", none, false⟩]
        (some "1") ⟨some "new", some "nd", []⟩ ∧
    (updateSuccess
      ⟨[⟨some "1", some "old", "", some "od", [], "", "", none, false⟩],
       false, none, false, [],
       some ⟨some "1", some "old", "", some "od", [], "", "", none, false⟩,
       some ⟨some "1", some "new", "", some "nd", [], "", "", none, false⟩, []⟩
      ⟨some "new", some "nd", []⟩).selectedProcess = none :=
  ⟨((updateSelectedProcess_patch_response _
      ⟨some "1", some "old", "", some "od", [], "", "", none, false⟩
      ⟨some "new", some "nd", []⟩).1 rfl).1,
   ((updateSelectedProcess_patch_response _
      ⟨some "1", some "old", "", some "od", [], "", "", none, false⟩
      ⟨some "new", some "nd", []⟩).1 rfl).2.1⟩

/-- C9: `formatTimeAgo` returns `""` for a null timestamp; otherwise,
with `d` the floor of elapsed seconds, it renders `Hace {d} seg` when
`d < 60`, else `Hace {m} min` with `m = ⌊d/60⌋` when `m < 60`, else
`Hace {h} h` with `h = ⌊m/60⌋` when `h < 24`, else `Hace {⌊h/24⌋} d`;
a timestamp 90 seconds in the past renders as `Hace 1 min`. -/
theorem formatTimeAgo_units (parseMs : String → Int) (nowMs : Int) :
    formatTimeAgo parseMs nowMs none = "" ∧
    (∀ s, s ≠ "" →
      (Int.fdiv (nowMs - parseMs s) 1000 < 60 →
        formatTimeAgo parseMs nowMs (some s) =
          "Hace " ++ toString (Int.fdiv (nowMs - parseMs s) 1000) ++ " seg") ∧
      (60 ≤ Int.fdiv (nowMs - parseMs s) 1000 →
        Int.fdiv (Int.fdiv (nowMs - parseMs s) 1000) 60 < 60 →
        formatTimeAgo parseMs nowMs (some s) =
          "Hace " ++
            toString (Int.fdiv (Int.fdiv (nowMs - parseMs s) 1000) 60) ++
            " min") ∧
      (60 ≤ Int.fdiv (nowMs - parseMs s) 1000 →
        60 ≤ Int.fdiv (Int.fdiv (nowMs - parseMs s) 1000) 60 →
        Int.fdiv (Int.fdiv (Int.fdiv (nowMs - parseMs s) 1000) 60) 60 < 24 →
        formatTimeAgo parseMs nowMs (some s) =
          "Hace " ++
            toString
              (Int.fdiv (Int.fdiv (Int.fdiv (nowMs - parseMs s) 1000) 60) 60) ++
            " h") ∧
      (60 ≤ Int.fdiv (nowMs - parseMs s) 1000 →
        60 ≤ Int.fdiv (Int.fdiv (nowMs - parseMs s) 1000) 60 →
        24 ≤ Int.fdiv (Int.fdiv (Int.fdiv (nowMs - parseMs s) 1000) 60) 60 →
        formatTimeAgo parseMs nowMs (some s) =
          "Hace " ++
            toString
              (Int.fdiv
                (Int.fdiv (Int.fdiv (Int.fdiv (nowMs - parseMs s) 1000) 60) 60)
                24) ++
            " d")) ∧
    (∀ s, s ≠ "" → parseMs s = nowMs - 90000 →
      formatTimeAgo parseMs nowMs (some s) = "Hace 1 min") := by
  refine ⟨rfl, ?_, ?_⟩
  · intro s hs
    refine ⟨?_, ?_, ?_, ?_⟩
    · intro h1
      simp [formatTimeAgo, formatTimeAgoMs, hs, h1]
    · intro h1 h2
      simp [formatTimeAgo, formatTimeAgoMs, hs, not_lt.mpr h1, h2]
    · intro h1 h2 h3
      simp [formatTimeAgo, formatTimeAgoMs, hs, not_lt.mpr h1, not_lt.mpr h2, h3]
    · intro h1 h2 h3
      simp [formatTimeAgo, formatTimeAgoMs, hs, not_lt.mpr h1, not_lt.mpr h2,
        not_lt.mpr h3]
  · intro s hs hp
    have h3 : nowMs - parseMs s = 90000 := by rw [hp]; ring
    have h4 : formatTimeAgo parseMs nowMs (some s) =
        formatTimeAgoMs (parseMs s) nowMs := by
      simp [formatTimeAgo, hs]
    rw [h4]
    unfold formatTimeAgoMs
    rw [h3]
    decide

/-- Witness for C9: with a parse function placing the timestamp 90
seconds before now, the output is `Hace 1 min`; a null timestamp gives
`""`. -/
theorem formatTimeAgo_units_witness :
    formatTimeAgo (fun _ => 0) 90000 none = "" ∧
    formatTimeAgo (fun _ => 0) 90000 (some "2026-01-01T00:00:00Z") =
      "Hace 1 min" :=
  ⟨(formatTimeAgo_units (fun _ => 0) 90000).1,
   (formatTimeAgo_units (fun _ => 0) 90000).2.2 "2026-01-01T00:00:00Z"
     (by decide) (by decide)⟩

/-- C10: a `"number"`-typed parameter whose value is the empty string, a
whitespace-only string, or null is coerced to the number `0` in the sent
payload (JS `Number('') = 0`); only values whose coercion yields `NaN`
keep their original value. -/
theorem number_coercion_empty_string_to_zero :
    jsToNumber (.str "") = some 0 ∧
    jsToNumber (.str "   ") = some 0 ∧
    jsToNumber .null = some 0 ∧
    (∀ nm, normalizeParam ⟨nm, some "number", .str ""⟩ =
      ⟨nm, some "number", .num 0⟩) ∧
    (∀ nm, normalizeParam ⟨nm, some "number", .str "   "⟩ =
      ⟨nm, some "number", .num 0⟩) ∧
    (∀ nm, normalizeParam ⟨nm, some "number", .null⟩ =
      ⟨nm, some "number", .num 0⟩) ∧
    (∀ p : Param, p.type = some "number" → jsToNumber p.value = none →
      normalizeParam p = p) ∧
    (∀ p : Param, p.type = some "number" → ∀ n, jsToNumber p.value = some n →
      (normalizeParam p).value = .num n) := by
  refine ⟨rfl, rfl, rfl, fun nm => rfl, fun nm => rfl, fun nm => rfl, ?_, ?_⟩
  · intro p h hn
    simp [normalizeParam, h, hn]
  · intro p h n hn
    simp [normalizeParam, h, hn]

/-- Witness for C10: the NaN-keeps-value and coerced cases at concrete
parameters. -/
theorem number_coercion_empty_string_to_zero_witness :
    normalizeParam ⟨none, some "number", .str "abc"⟩ =
      ⟨none, some "number", .str "abc"⟩ ∧
    (normalizeParam ⟨none, some "number", .str ""⟩).value = .num 0 :=
  ⟨number_coercion_empty_string_to_zero.2.2.2.2.2.2.1
     ⟨none, some "number", .str "abc"⟩ rfl (by decide),
   number_coercion_empty_string_to_zero.2.2.2.2.2.2.2
     ⟨none, some "number", .str ""⟩ rfl 0 (by decide)⟩

end Processes
